import Mathlib

/-!
Shallow embedding of the data-dictionary validator (`Streamlit_app.py`):
the naming-convention rule engine.  Strings are modelled as Lean `String`s
over their character lists; Python's ASCII case mapping is modelled by an
explicit table of the 26 letter pairs; Python `dict`s are association
lists; the two LLM-backed collaborators (correction advisor, sample-data
fallback) and the random number draws of `generate_sample_data` are
modelled as oracle parameters, since only their interface shape matters
to the engine.
-/

namespace DataDict

/-- The whitespace characters of Python's `str.split()` / `str.strip()`
(ASCII fragment). -/
def isWs (c : Char) : Bool :=
  c = ' ' || c = '\t' || c = '\n' || c = '\r' || c = '\x0b' || c = '\x0c'

/-- The 26 ASCII letter pairs (upper case, lower case): the fragment of
Python's case mapping that the validator's inputs exercise. -/
def asciiCasePairs : List (Char × Char) :=
  [('A', 'a'), ('B', 'b'), ('C', 'c'), ('D', 'd'), ('E', 'e'), ('F', 'f'),
   ('G', 'g'), ('H', 'h'), ('I', 'i'), ('J', 'j'), ('K', 'k'), ('L', 'l'),
   ('M', 'm'), ('N', 'n'), ('O', 'o'), ('P', 'p'), ('Q', 'q'), ('R', 'r'),
   ('S', 's'), ('T', 't'), ('U', 'u'), ('V', 'v'), ('W', 'w'), ('X', 'x'),
   ('Y', 'y'), ('Z', 'z')]

/-- `asciiCasePairs` with each pair swapped: (lower case, upper case). -/
def asciiCaseSwap : List (Char × Char) :=
  asciiCasePairs.map (fun p => (p.2, p.1))

/-- Python `str.lower` on one character (ASCII). -/
def pyToLower (c : Char) : Char :=
  (asciiCasePairs.lookup c).getD c

/-- Python `str.upper` on one character (ASCII). -/
def pyToUpper (c : Char) : Char :=
  (asciiCaseSwap.lookup c).getD c

/-- Python `str.lower`. -/
def pyLower (s : String) : String :=
  String.mk (s.toList.map pyToLower)

/-- Python `str.upper`. -/
def pyUpper (s : String) : String :=
  String.mk (s.toList.map pyToUpper)

/-- Python `str.strip()`: drop leading and trailing whitespace. -/
def pyStrip (s : String) : String :=
  String.mk (((s.toList.dropWhile isWs).reverse.dropWhile isWs).reverse)

/-- Python `str.startswith`. -/
def pyStartsWith (s pre : String) : Bool :=
  pre.toList.isPrefixOf s.toList

/-- Python `str.endsWith`. -/
def pyEndsWith (s suf : String) : Bool :=
  suf.toList.isSuffixOf s.toList

/-- Does `pat` occur as a contiguous run inside `l`?  (Python `in` on
strings, over character lists.) -/
def containsSub : List Char → List Char → Bool
  | [], pat => pat.isEmpty
  | c :: t, pat => pat.isPrefixOf (c :: t) || containsSub t pat

/-- Python `sub in s` for strings. -/
def pyContains (s sub : String) : Bool :=
  containsSub s.toList sub.toList

/-- Python `s.split(sep)` for a one-character separator: splits at every
occurrence and keeps empty pieces (`"".split('_') == ['']`). -/
def splitOnChar (sep : Char) : List Char → List (List Char)
  | [] => [[]]
  | c :: cs =>
    if c = sep then [] :: splitOnChar sep cs
    else
      match splitOnChar sep cs with
      | [] => [[c]]
      | w :: ws => (c :: w) :: ws

/-- `column_name.split('_')` as a list of strings. -/
def pySplitUnderscore (s : String) : List String :=
  (splitOnChar '_' s.toList).map String.mk

/-- Helper of `splitWs`: walks the characters, accumulating the current
word in reverse; a whitespace character closes the accumulated word. -/
def splitWsAux : List Char → List Char → List (List Char)
  | [], acc => if acc.isEmpty then [] else [acc.reverse]
  | c :: cs, acc =>
    if isWs c then
      if acc.isEmpty then splitWsAux cs [] else acc.reverse :: splitWsAux cs []
    else splitWsAux cs (c :: acc)

/-- Python `s.split()` (no argument): split on runs of whitespace,
dropping empty pieces. -/
def splitWs (l : List Char) : List (List Char) :=
  splitWsAux l []

/-- `english_name.split()` as a list of strings. -/
def pySplitWs (s : String) : List String :=
  (splitWs s.toList).map String.mk

/-- Python `" ".join(words)` over character lists. -/
def joinWords : List (List Char) → List Char
  | [] => []
  | [w] => w
  | w :: ws => w ++ ' ' :: joinWords ws

/-- The numeric-token test of `check_column_parts` and
`validate_abbreviation_usage`: `bool(re.match(r"^\d+$", value))`.  In
Python the anchor `$` matches at the end of the string or just before one
final newline, so the regex accepts one or more decimal digits optionally
followed by a single trailing newline (ASCII fragment of `\d`): strip one
trailing newline if present, then require a non-empty run of digits. -/
def is_number (value : String) : Bool :=
  let body := if value.toList.getLast? = some '\n' then value.toList.dropLast
    else value.toList
  !body.isEmpty && body.all Char.isDigit

/-- The approved-term set built identically inside `check_column_parts`
and `validate_abbreviation_usage`: abbreviation keys, abbreviation
values, class words, and the words of the row's English name. -/
def approved_terms (abbreviations : List (String × String)) (class_words : List String)
    (english_name : String) : List String :=
  abbreviations.map Prod.fst ++ abbreviations.map Prod.snd ++ class_words
    ++ pySplitWs english_name

/-- `check_column_parts`: the underscore parts of the column name (as a
set, modelled by `dedup`) that are neither approved terms nor numeric. -/
def check_column_parts (column_name : String) (abbreviations : List (String × String))
    (english_name : String) (class_words : List String) : List String :=
  let column_parts := (pySplitUnderscore column_name).dedup
  column_parts.filter
    (fun part => decide (part ∉ approved_terms abbreviations class_words english_name)
      && !is_number part)

/-- The record returned by `validate_class_word`. -/
structure ClassWordResult where
  validation_status : String
  class_word_issue : String
  suggested_class_word : String
deriving DecidableEq

/-- The fixed class-word / data-type compatibility table defined inside
`validate_data_dictionary`. -/
def class_word_type_map : List (String × List String) :=
  [("TXT", ["VARCHAR", "VARCHAR2", "TEXT"]),
   ("NAM", ["VARCHAR", "VARCHAR2", "TEXT"]),
   ("CDE", ["INT", "BIGINT", "VARCHAR", "VARCHAR2", "NUMBER"]),
   ("DTE", ["DATE", "DATETIME", "TIMESTAMP"]),
   ("TME", ["TIME", "DATETIME", "TIMESTAMP"]),
   ("IDN", ["INT", "BIGINT", "NUMBER"]),
   ("NBR", ["INT", "BIGINT", "NUMBER"]),
   ("AMT", ["DECIMAL", "FLOAT", "NUMERIC", "NUMBER"]),
   ("CNT", ["INT", "BIGINT", "NUMBER"]),
   ("IND", ["BOOLEAN", "CHAR", "VARCHAR", "VARCHAR2"])]

/-- `validate_class_word`: the class word is the first three characters of
the column name; its expected types are looked up in the map (empty list
when absent); a data type outside the expected list fails with a
mismatch message and a suggested replacement class word. -/
def validate_class_word (column_name data_type english_name : String)
    (class_word_type_map : List (String × List String)) : ClassWordResult :=
  let class_word := String.mk (column_name.toList.take 3)
  let expected_types := (List.lookup class_word class_word_type_map).getD []
  if !expected_types.contains data_type then
    { validation_status := "FAIL",
      class_word_issue := "Class word '" ++ class_word
        ++ "' does not match expected data type '" ++ data_type ++ "'.",
      suggested_class_word :=
        if pyContains (pyLower english_name) "text" then "TXT" else "IND" }
  else
    { validation_status := "PASS", class_word_issue := "Valid", suggested_class_word := "" }

/-- The record returned by `validate_abbreviation_usage`. -/
structure AbbrevUsageResult where
  unrecognized_parts : List String
  missing_terms : List String
  suggested_replacements : List (String × String)
deriving DecidableEq

/-- `validate_abbreviation_usage`: recomputes, with the very same
expression as `check_column_parts`, the underscore parts that are neither
approved nor numeric, and reports them as `unrecognized_parts`. -/
def validate_abbreviation_usage (column_name : String)
    (abbreviations : List (String × String)) (class_words : List String)
    (english_name : String) : AbbrevUsageResult :=
  let unrecognized_parts := ((pySplitUnderscore column_name).dedup).filter
    (fun part => decide (part ∉ approved_terms abbreviations class_words english_name)
      && !is_number part)
  if unrecognized_parts.isEmpty then
    { unrecognized_parts := [], missing_terms := [], suggested_replacements := [] }
  else
    { unrecognized_parts := unrecognized_parts, missing_terms := [],
      suggested_replacements := [] }

/-- The stopword list of `capitalize_english_name`. -/
def allowed_words : List String :=
  ["in", "of", "the", "and", "to", "for", "with", "at", "by", "from", "on", "or"]

/-- Python `word.lower()` over a character list. -/
def pyLowerWord (w : List Char) : List Char :=
  w.map pyToLower

/-- Python `word.capitalize()`: upper-case the first character, lower-case
the rest. -/
def pyCapitalizeWord : List Char → List Char
  | [] => []
  | c :: cs => pyToUpper c :: cs.map pyToLower

/-- One word of `capitalize_english_name`:
`word.capitalize() if i == 0 or word.lower() not in allowed_words else word.lower()`. -/
def capWordAt (i : Nat) (w : List Char) : List Char :=
  if i = 0 || !allowed_words.contains (String.mk (pyLowerWord w)) then pyCapitalizeWord w
  else pyLowerWord w

/-- `capitalize_english_name`: split on whitespace, capitalize each word
except non-initial stopwords (which are lower-cased), join with single
spaces. -/
def capitalize_english_name (english_name : String) : String :=
  String.mk (joinWords (((splitWs english_name.toList).enum).map (fun p => capWordAt p.1 p.2)))

/-- `highlight_incorrect_capitalization`: (CSS style, issue note); empty
on blank input or when the English name already equals its canonical
capitalization. -/
def highlight_incorrect_capitalization (val : String) : String × String :=
  if pyStrip val = "" then ("", "")
  else if val ≠ capitalize_english_name val then
    ("background-color: yellow; color: black; font-weight: bold;",
     "Capitalization issue in English Name.")
  else ("", "")

/-- The table-name shape check of `validate_data_dictionary`: starts with
`'T'` and ends with one of the four suffix tags. -/
def table_name_valid (table_name : String) : Bool :=
  pyStartsWith table_name "T" &&
    (pyEndsWith table_name "FACT" || pyEndsWith table_name "DIM"
      || pyEndsWith table_name "STG" || pyEndsWith table_name "RPTNG")

/-- `table_failure_reason` as set by `validate_data_dictionary`: empty on
a valid table name, a fixed message otherwise. -/
def table_failure_reason_of (table_name : String) : String :=
  if table_name_valid table_name then ""
  else "Table name must start with 'T' and end with \x7b'FACT','DIM','STG','RPTNG'\x7d."

/-- The de-duplication step of `validate_data_dictionary`: missing parts
that are not already flagged as unrecognized abbreviations. -/
def filtered_missing_parts (column_name : String) (abbreviations : List (String × String))
    (class_words : List String) (english_name : String) : List String :=
  let missing_parts := check_column_parts column_name abbreviations english_name class_words
  let issues := validate_abbreviation_usage column_name abbreviations class_words english_name
  missing_parts.filter (fun part => !issues.unrecognized_parts.contains part)

/-- The `failure_reasons` list assembled per row by
`validate_data_dictionary`, in its fixed order: class-word issue, then
missing/incorrect tokens, then unrecognized abbreviations. -/
def row_failure_reasons (column_name data_type english_name : String)
    (abbreviations : List (String × String)) (class_words : List String) : List String :=
  let class_word_validation :=
    validate_class_word column_name data_type english_name class_word_type_map
  let issues := validate_abbreviation_usage column_name abbreviations class_words english_name
  let filtered := filtered_missing_parts column_name abbreviations class_words english_name
  (if class_word_validation.validation_status = "FAIL"
    then [class_word_validation.class_word_issue] else [])
  ++ (if !filtered.isEmpty
      then ["Column name is missing or incorrect for: " ++ String.intercalate ", " filtered]
      else [])
  ++ (if !issues.unrecognized_parts.isEmpty
      then ["Unrecognized abbreviation(s): "
        ++ String.intercalate ", " issues.unrecognized_parts
        ++ " are not in the approved list."]
      else [])

/-- The oracle for the random draws and external fallback of
`generate_sample_data`: the dates, currency and decimal values are
random draws formatted through float/date formatting, abstracted here to
the produced strings; the ID and integer branches expose their
`random.randint` draw; `fallback_samples` is the reply of the external
sample-data collaborator (`call_openai_for_sample_data`). -/
structure SampleOracle where
  date_sample : Nat → String
  id_draw : Nat → Nat
  money_sample : Int → Nat → String
  decimal_sample : Int → Int → Nat → String
  int_draw : Int → Nat → Nat
  fallback_samples : String → String → Int → Int → List String

/-- `generate_sample_data`: keyword dispatch on the lower-cased column
name, then data-type prefix dispatch, else the external fallback; each
rule-based branch appends one value per loop iteration over `range(3)`;
an empty result is replaced by the `"N/A"` placeholder triple. -/
def generate_sample_data (o : SampleOracle) (data_type : String) (precision scale : Int)
    (column_name description : String) : List String :=
  let column_name_lower := pyLower column_name
  let samples :=
    if pyContains column_name_lower "date" || pyContains column_name_lower "dob"
        || pyContains column_name_lower "birth" then
      (List.range 3).map (fun i => o.date_sample i)
    else if pyContains column_name_lower "id" || pyContains column_name_lower "code"
        || pyContains column_name_lower "ref" then
      (List.range 3).map (fun i => "ID" ++ toString (o.id_draw i))
    else if pyContains column_name_lower "price" || pyContains column_name_lower "amount"
        || pyContains column_name_lower "cost" then
      (List.range 3).map (fun i => o.money_sample scale i)
    else if pyStartsWith data_type "DECIMAL" || pyStartsWith data_type "FLOAT" then
      (List.range 3).map (fun i => o.decimal_sample precision scale i)
    else if pyStartsWith data_type "INT" || pyStartsWith data_type "BIGINT" then
      (List.range 3).map (fun i => toString (o.int_draw precision i))
    else
      o.fallback_samples column_name description precision scale
  if samples.isEmpty then ["N/A", "N/A", "N/A"] else samples

/-- The reply of the correction advisor (`call_openai_suggestion`),
already merged with its `.get(..., default)` fallbacks. -/
structure AdvisorOutput where
  suggested_table_name : String
  suggested_column_name : String
  additional_notes : String

/-- The external correction advisor: called with table name, column name,
English name, table failure reason and column failure reason. -/
def Advisor : Type :=
  String → String → String → String → String → AdvisorOutput

/-- One input row of the data dictionary, before normalization. -/
structure RawRow where
  table_name : String
  column_name : String
  english_name : String
  data_type : String
  precision : Int
  scale : Int
  description : String

/-- The per-row result record appended by `validate_data_dictionary`. -/
structure Verdict where
  table_name : String
  column_name : String
  english_name : String
  data_type : String
  precision : Int
  scale : Int
  validation_status : String
  notes : String
  suggested_table_name : String
  suggested_column_name : String
  suggested_class_word : String
  additional_notes : String
  corrected_description : String
  sample_data : List String

/-- The body of `validate_data_dictionary`'s per-row loop: normalization,
table-shape check, column-token and abbreviation checks, class-word
check, status and reason assembly, sample synthesis, advisor call on
failure, capitalization note, and the result record. -/
def validate_row (advisor : Advisor) (o : SampleOracle)
    (abbreviations : List (String × String)) (class_words : List String)
    (row : RawRow) : Verdict :=
  let table_name := pyUpper (pyStrip row.table_name)
  let column_name := pyUpper (pyStrip row.column_name)
  let english_name := pyUpper (pyStrip row.english_name)
  let english_name1 := pyStrip row.english_name
  let data_type := pyUpper (pyStrip row.data_type)
  let description := pyStrip row.description
  let table_failure_reason := table_failure_reason_of table_name
  let class_word_validation :=
    validate_class_word column_name data_type english_name class_word_type_map
  let failure_reasons :=
    row_failure_reasons column_name data_type english_name abbreviations class_words
  let column_failure_reason := String.intercalate "; " failure_reasons
  let validation_status :=
    if failure_reasons = [] ∧ table_failure_reason = "" then "PASS" else "FAIL"
  let sample_data_records :=
    generate_sample_data o data_type row.precision row.scale column_name description
  let adv := advisor table_name column_name english_name table_failure_reason
    column_failure_reason
  let suggested_table_name :=
    if validation_status = "FAIL" then adv.suggested_table_name else ""
  let suggested_column_name :=
    if validation_status = "FAIL" then adv.suggested_column_name else ""
  let additional_notes :=
    if validation_status = "FAIL" then adv.additional_notes else "No corrections needed."
  let capitalization_issue := (highlight_incorrect_capitalization english_name1).2
  let column_failure_reason :=
    if capitalization_issue ≠ "" then column_failure_reason ++ " " ++ capitalization_issue
    else column_failure_reason
  { table_name := table_name,
    column_name := column_name,
    english_name := english_name1,
    data_type := data_type,
    precision := row.precision,
    scale := row.scale,
    validation_status := validation_status,
    notes :=
      if validation_status = "PASS" then "Valid"
      else if column_failure_reason ≠ "" then column_failure_reason
      else table_failure_reason,
    suggested_table_name := suggested_table_name,
    suggested_column_name := suggested_column_name,
    suggested_class_word := class_word_validation.suggested_class_word,
    additional_notes := additional_notes,
    corrected_description := description,
    sample_data := sample_data_records }

/-- A concrete advisor stand-in (the engine treats the advisor as an
opaque suggestion provider). -/
def trivialAdvisor : Advisor :=
  fun _ _ _ _ _ =>
    { suggested_table_name := "",
      suggested_column_name := "",
      additional_notes := "" }

/-- A concrete sample oracle stand-in with a three-value fallback. -/
def fixedOracle : SampleOracle :=
  { date_sample := fun _ => "2020-01-01",
    id_draw := fun _ => 1234,
    money_sample := fun _ _ => "$10.00",
    decimal_sample := fun _ _ _ => "10.0",
    int_draw := fun _ _ => 42,
    fallback_samples := fun _ _ _ _ => ["sample1", "sample2", "sample3"] }

/-- A concrete row that passes every check while its English name
diverges from canonical capitalization. -/
def examplePassRow : RawRow :=
  { table_name := "T_SLS_ORD_FACT", column_name := "DTE_ORD",
    english_name := "order date", data_type := "DATE",
    precision := 0, scale := 0, description := "" }

/-- A concrete row whose table name misses the leading `T`. -/
def exampleFailRow : RawRow :=
  { table_name := "SLS_ORDER_FACT", column_name := "DTE_ORD",
    english_name := "Order Date", data_type := "DATE",
    precision := 0, scale := 0, description := "" }

/-! Helper lemmas shared by the claim theorems. -/

/-- A successful association-list lookup comes from a member pair. -/
theorem mem_of_lookup_eq_some {α β : Type} [BEq α] [LawfulBEq α]
    {tbl : List (α × β)} {c : α} {v : β} (h : tbl.lookup c = some v) : (c, v) ∈ tbl := by
  induction tbl with
  | nil => simp at h
  | cons p t ih =>
    obtain ⟨k, b⟩ := p
    simp only [List.lookup] at h
    by_cases hk : c = k
    · subst hk
      simp at h
      subst h
      exact List.mem_cons_self _ _
    · have hk' : (c == k) = false := beq_eq_false_iff_ne.mpr hk
      rw [hk'] at h
      simp at h
      exact List.mem_cons_of_mem _ (ih h)

/-- No lower-case letter is a key of the upper-to-lower table. -/
theorem lower_not_key_of_lower :
    ∀ p ∈ asciiCasePairs, asciiCasePairs.lookup p.2 = none := by decide

/-- No upper-case letter is a key of the lower-to-upper table. -/
theorem upper_not_key_of_upper :
    ∀ p ∈ asciiCaseSwap, asciiCaseSwap.lookup p.2 = none := by decide

/-- Lowering the upper case of a lower-case letter gives it back. -/
theorem lower_lookup_of_swap :
    ∀ p ∈ asciiCaseSwap, asciiCasePairs.lookup p.2 = some p.1 := by decide

/-- No lower-case letter is a key of the upper-to-lower table. -/
theorem lower_key_not_in_pairs :
    ∀ p ∈ asciiCaseSwap, asciiCasePairs.lookup p.1 = none := by decide

/-- Letters of the case table are not whitespace. -/
theorem casePairs_not_ws :
    ∀ p ∈ asciiCasePairs, isWs p.1 = false ∧ isWs p.2 = false := by decide

/-- Letters of the swapped case table are not whitespace. -/
theorem caseSwap_not_ws :
    ∀ p ∈ asciiCaseSwap, isWs p.1 = false ∧ isWs p.2 = false := by decide

/-- Python's one-character `lower` is idempotent. -/
theorem pyToLower_pyToLower (c : Char) : pyToLower (pyToLower c) = pyToLower c := by
  unfold pyToLower
  cases h : asciiCasePairs.lookup c with
  | none => simp [h]
  | some v =>
    have hm := mem_of_lookup_eq_some h
    have hv := lower_not_key_of_lower (c, v) hm
    simp [h, hv]

/-- Python's one-character `upper` is idempotent. -/
theorem pyToUpper_pyToUpper (c : Char) : pyToUpper (pyToUpper c) = pyToUpper c := by
  unfold pyToUpper
  cases h : asciiCaseSwap.lookup c with
  | none => simp [h]
  | some v =>
    have hm := mem_of_lookup_eq_some h
    have hv := upper_not_key_of_upper (c, v) hm
    simp [h, hv]

/-- Lowering after uppering is the same as lowering. -/
theorem pyToLower_pyToUpper (c : Char) : pyToLower (pyToUpper c) = pyToLower c := by
  unfold pyToUpper
  cases h : asciiCaseSwap.lookup c with
  | none => simp [h]
  | some v =>
    have hm := mem_of_lookup_eq_some h
    have h1 := lower_lookup_of_swap (c, v) hm
    have h2 := lower_key_not_in_pairs (c, v) hm
    simp only [Option.getD_some]
    unfold pyToLower
    simp [h1, h2]

/-- One-character `lower` maps non-whitespace to non-whitespace (and
fixes whitespace). -/
theorem isWs_pyToLower (c : Char) : isWs (pyToLower c) = isWs c := by
  unfold pyToLower
  cases h : asciiCasePairs.lookup c with
  | none => simp [h]
  | some v =>
    have hm := mem_of_lookup_eq_some h
    have hv := casePairs_not_ws (c, v) hm
    simp [h, hv.1, hv.2]

/-- One-character `upper` maps non-whitespace to non-whitespace (and
fixes whitespace). -/
theorem isWs_pyToUpper (c : Char) : isWs (pyToUpper c) = isWs c := by
  unfold pyToUpper
  cases h : asciiCaseSwap.lookup c with
  | none => simp [h]
  | some v =>
    have hm := mem_of_lookup_eq_some h
    have hv := caseSwap_not_ws (c, v) hm
    simp [h, hv.1, hv.2]

/-- Lower-casing a word is idempotent. -/
theorem pyLowerWord_idem (w : List Char) : pyLowerWord (pyLowerWord w) = pyLowerWord w := by
  simp only [pyLowerWord, List.map_map]
  exact List.map_congr_left (fun c _ => by simp [Function.comp, pyToLower_pyToLower])

/-- Capitalizing a word twice is the same as capitalizing it once. -/
theorem pyCapitalizeWord_idem (w : List Char) :
    pyCapitalizeWord (pyCapitalizeWord w) = pyCapitalizeWord w := by
  cases w with
  | nil => rfl
  | cons c cs =>
    simp only [pyCapitalizeWord, pyToUpper_pyToUpper, List.map_map, List.cons.injEq, true_and]
    exact List.map_congr_left (fun d _ => by simp [Function.comp, pyToLower_pyToLower])

/-- Lower-casing a capitalized word gives the lower-cased word. -/
theorem pyLowerWord_pyCapitalizeWord (w : List Char) :
    pyLowerWord (pyCapitalizeWord w) = pyLowerWord w := by
  cases w with
  | nil => rfl
  | cons c cs =>
    simp only [pyCapitalizeWord, pyLowerWord, List.map_cons, pyToLower_pyToUpper,
      List.map_map, List.cons.injEq, true_and]
    exact List.map_congr_left (fun d _ => by simp [Function.comp, pyToLower_pyToLower])

/-- Capitalizing keeps a word non-empty. -/
theorem pyCapitalizeWord_ne_nil {w : List Char} (h : w ≠ []) : pyCapitalizeWord w ≠ [] := by
  cases w with
  | nil => exact absurd rfl h
  | cons c cs => simp [pyCapitalizeWord]

/-- Lower-casing keeps a word non-empty. -/
theorem pyLowerWord_ne_nil {w : List Char} (h : w ≠ []) : pyLowerWord w ≠ [] := by
  cases w with
  | nil => exact absurd rfl h
  | cons c cs => simp [pyLowerWord]

/-- Lower-casing keeps a word whitespace-free. -/
theorem pyLowerWord_not_ws {w : List Char} (h : ∀ c ∈ w, isWs c = false) :
    ∀ c ∈ pyLowerWord w, isWs c = false := by
  intro c hc
  obtain ⟨d, hd, rfl⟩ := List.mem_map.mp hc
  rw [isWs_pyToLower]
  exact h d hd

/-- Capitalizing keeps a word whitespace-free. -/
theorem pyCapitalizeWord_not_ws {w : List Char} (h : ∀ c ∈ w, isWs c = false) :
    ∀ c ∈ pyCapitalizeWord w, isWs c = false := by
  cases w with
  | nil => simp [pyCapitalizeWord]
  | cons a as =>
    intro c hc
    simp only [pyCapitalizeWord, List.mem_cons] at hc
    rcases hc with rfl | hc
    · rw [isWs_pyToUpper]
      exact h a (List.mem_cons_self _ _)
    · obtain ⟨d, hd, rfl⟩ := List.mem_map.mp hc
      rw [isWs_pyToLower]
      exact h d (List.mem_cons_of_mem _ hd)

/-- One word-step of `capitalize_english_name` is idempotent. -/
theorem capWordAt_idem (i : Nat) (w : List Char) :
    capWordAt i (capWordAt i w) = capWordAt i w := by
  unfold capWordAt
  by_cases h0 : i = 0
  · simp [h0, pyCapitalizeWord_idem]
  · simp only [h0, Bool.false_or, if_neg]
    cases hc : allowed_words.contains (String.mk (pyLowerWord w)) with
    | false =>
      have hm : String.mk (pyLowerWord w) ∉ allowed_words := by simpa using hc
      have hm2 : String.mk (pyLowerWord (pyCapitalizeWord w)) ∉ allowed_words := by
        rw [pyLowerWord_pyCapitalizeWord]
        exact hm
      simp [hm, hm2, pyCapitalizeWord_idem]
    | true =>
      have hm : String.mk (pyLowerWord w) ∈ allowed_words := by simpa using hc
      have hm2 : String.mk (pyLowerWord (pyLowerWord w)) ∈ allowed_words := by
        rw [pyLowerWord_idem]
        exact hm
      simp [hm, hm2, pyLowerWord_idem]

/-- One word-step keeps a word non-empty. -/
theorem capWordAt_ne_nil (i : Nat) {w : List Char} (h : w ≠ []) : capWordAt i w ≠ [] := by
  unfold capWordAt
  split
  · exact pyCapitalizeWord_ne_nil h
  · exact pyLowerWord_ne_nil h

/-- One word-step keeps a word whitespace-free. -/
theorem capWordAt_not_ws (i : Nat) {w : List Char} (h : ∀ c ∈ w, isWs c = false) :
    ∀ c ∈ capWordAt i w, isWs c = false := by
  unfold capWordAt
  split
  · exact pyCapitalizeWord_not_ws h
  · exact pyLowerWord_not_ws h

/-- Every word produced by `splitWsAux` over a whitespace-free
accumulator is non-empty and whitespace-free. -/
theorem splitWsAux_sound :
    ∀ (l acc : List Char), (∀ c ∈ acc, isWs c = false) →
      ∀ w ∈ splitWsAux l acc, w ≠ [] ∧ ∀ c ∈ w, isWs c = false := by
  intro l
  induction l with
  | nil =>
    intro acc hacc w hw
    simp only [splitWsAux] at hw
    split at hw
    · simp at hw
    · next ha =>
      simp only [List.mem_singleton] at hw
      subst hw
      refine ⟨?_, ?_⟩
      · simpa [List.reverse_eq_nil_iff] using (by simpa using ha : ¬acc = [])
      · intro c hc
        exact hacc c (List.mem_reverse.mp hc)
  | cons c cs ih =>
    intro acc hacc w hw
    simp only [splitWsAux] at hw
    split at hw
    · split at hw
      · exact ih [] (by simp) w hw
      · next ha =>
        rcases List.mem_cons.mp hw with rfl | hw
        · refine ⟨?_, ?_⟩
          · simpa [List.reverse_eq_nil_iff] using (by simpa using ha : ¬acc = [])
          · intro d hd
            exact hacc d (List.mem_reverse.mp hd)
        · exact ih [] (by simp) w hw
    · next hc =>
      refine ih (c :: acc) ?_ w hw
      intro d hd
      rcases List.mem_cons.mp hd with rfl | hd
      · simpa using hc
      · exact hacc d hd

/-- Every word produced by `splitWs` is non-empty and whitespace-free. -/
theorem splitWs_sound (l : List Char) : ∀ w ∈ splitWs l, w ≠ [] ∧ ∀ c ∈ w, isWs c = false :=
  splitWsAux_sound l [] (by simp)

/-- `splitWsAux` consumes a whitespace-free block into the accumulator. -/
theorem splitWsAux_word {w : List Char} (hw : ∀ c ∈ w, isWs c = false) :
    ∀ (rest acc : List Char), splitWsAux (w ++ rest) acc = splitWsAux rest (w.reverse ++ acc) := by
  induction w with
  | nil => intro rest acc; simp
  | cons c cs ih =>
    intro rest acc
    have hc : isWs c = false := hw c (List.mem_cons_self _ _)
    simp only [List.cons_append, splitWsAux, hc, Bool.false_eq_true, if_false]
    show splitWsAux (cs ++ rest) (c :: acc) = splitWsAux rest ((c :: cs).reverse ++ acc)
    rw [ih (fun d hd => hw d (List.mem_cons_of_mem _ hd)) rest (c :: acc)]
    simp [List.append_assoc]

/-- Splitting the space-joined list of non-empty whitespace-free words
recovers the words. -/
theorem splitWs_joinWords :
    ∀ ws : List (List Char), (∀ w ∈ ws, w ≠ [] ∧ ∀ c ∈ w, isWs c = false) →
      splitWs (joinWords ws) = ws := by
  intro ws
  induction ws with
  | nil => intro _; rfl
  | cons w ws ih =>
    intro h
    obtain ⟨hne, hwfree⟩ := h w (List.mem_cons_self _ _)
    have hrevne : (w.reverse).isEmpty = false := by
      cases hr : w.reverse with
      | nil => exact absurd (List.reverse_eq_nil_iff.mp hr) hne
      | cons a as => rfl
    cases ws with
    | nil =>
      show splitWsAux (joinWords [w]) [] = [w]
      have hj : joinWords [w] = w ++ [] := by simp [joinWords]
      rw [hj, splitWsAux_word hwfree [] []]
      simp only [splitWsAux, List.append_nil, hrevne, Bool.false_eq_true, if_false]
      simp
    | cons w' ws' =>
      show splitWsAux (joinWords (w :: w' :: ws')) [] = w :: w' :: ws'
      have hj : joinWords (w :: w' :: ws') = w ++ ' ' :: joinWords (w' :: ws') := rfl
      rw [hj, splitWsAux_word hwfree (' ' :: joinWords (w' :: ws')) []]
      simp only [splitWsAux, List.append_nil, hrevne, Bool.false_eq_true, if_false,
        show isWs ' ' = true from rfl, if_true, List.reverse_reverse]
      exact congrArg _ (ih (fun v hv => h v (List.mem_cons_of_mem _ hv)))

/-- The second element of an `enumFrom` pair is an element of the list. -/
theorem mem_of_mem_enumFrom {α : Type} {p : Nat × α} :
    ∀ {n : Nat} {l : List α}, p ∈ List.enumFrom n l → p.2 ∈ l := by
  intro n l
  induction l generalizing n with
  | nil => simp
  | cons a as ih =>
    intro hp
    rcases List.mem_cons.mp hp with rfl | hp
    · exact List.mem_cons_self _ _
    · exact List.mem_cons_of_mem _ (ih hp)

/-- Re-running the per-word step over the already-processed, re-enumerated
word list changes nothing. -/
theorem enumFrom_map_capWordAt_idem (ws : List (List Char)) :
    ∀ n : Nat,
      (List.enumFrom n ((List.enumFrom n ws).map (fun p => capWordAt p.1 p.2))).map
          (fun p => capWordAt p.1 p.2)
        = (List.enumFrom n ws).map (fun p => capWordAt p.1 p.2) := by
  induction ws with
  | nil => intro n; simp
  | cons w ws ih =>
    intro n
    simp only [List.enumFrom_cons, List.map_cons]
    rw [capWordAt_idem]
    exact congrArg _ (ih (n + 1))

/-- C8: canonicalizing the English-name capitalization is idempotent:
`capitalize_english_name (capitalize_english_name s) = capitalize_english_name s`
for every string `s`, where `capitalize_english_name` capitalizes the
first letter of each word except non-initial stopwords from the fixed
list (in, of, the, and, to, for, with, at, by, from, on, or), which are
lower-cased, and always capitalizes the first word. -/
theorem capitalize_english_name_idem (s : String) :
    capitalize_english_name (capitalize_english_name s) = capitalize_english_name s := by
  unfold capitalize_english_name
  have htl : (String.mk (joinWords (((splitWs s.toList).enum).map (fun p => capWordAt p.1 p.2)))).toList
      = joinWords (((splitWs s.toList).enum).map (fun p => capWordAt p.1 p.2)) := rfl
  rw [htl]
  have hall : ∀ w ∈ ((splitWs s.toList).enum).map (fun p => capWordAt p.1 p.2),
      w ≠ [] ∧ ∀ c ∈ w, isWs c = false := by
    intro w hw
    obtain ⟨p, hp, rfl⟩ := List.mem_map.mp hw
    have hmem : p.2 ∈ splitWs s.toList := mem_of_mem_enumFrom hp
    have hs := splitWs_sound s.toList p.2 hmem
    exact ⟨capWordAt_ne_nil _ hs.1, capWordAt_not_ws _ hs.2⟩
  rw [splitWs_joinWords _ hall]
  exact congrArg String.mk (congrArg joinWords (enumFrom_map_capWordAt_idem (splitWs s.toList) 0))

/-- The digit test of the embedding agrees with the characters 0-9. -/
theorem isDigit_iff (c : Char) : c.isDigit = true ↔ '0' ≤ c ∧ c ≤ '9' := by
  simp [Char.isDigit, Char.le_def, decide_eq_true_eq]

/-- The embedded regex test `^\d+$` accepts exactly the strings of one or
more decimal digits, optionally followed by a single trailing newline. -/
theorem is_number_iff_digits (t : String) :
    is_number t = true ↔
      ∃ ds : List Char, ds ≠ [] ∧ (∀ c ∈ ds, '0' ≤ c ∧ c ≤ '9')
        ∧ (t.toList = ds ∨ t.toList = ds ++ ['\n']) := by
  unfold is_number
  by_cases h : t.toList.getLast? = some '\n'
  · obtain ⟨ys, hys⟩ := List.getLast?_eq_some_iff.mp h
    rw [if_pos h, hys, List.dropLast_concat]
    simp only [Bool.and_eq_true, Bool.not_eq_true', List.isEmpty_eq_false, List.all_eq_true]
    constructor
    · rintro ⟨h1, h2⟩
      exact ⟨ys, h1, fun c hc => (isDigit_iff c).mp (h2 c hc), Or.inr rfl⟩
    · rintro ⟨ds, hne, hdig, hcase | hcase⟩
      · exfalso
        have hm : '\n' ∈ ds := by
          rw [← hcase]
          exact List.mem_append_right _ (by simp)
        exact absurd (hdig _ hm) (by decide)
      · obtain rfl : ys = ds := List.append_cancel_right hcase
        exact ⟨hne, fun c hc => (isDigit_iff c).mpr (hdig c hc)⟩
  · rw [if_neg h]
    simp only [Bool.and_eq_true, Bool.not_eq_true', List.isEmpty_eq_false, List.all_eq_true]
    constructor
    · rintro ⟨h1, h2⟩
      exact ⟨t.toList, h1, fun c hc => (isDigit_iff c).mp (h2 c hc), Or.inl rfl⟩
    · rintro ⟨ds, hne, hdig, hcase | hcase⟩
      · rw [hcase]
        exact ⟨hne, fun c hc => (isDigit_iff c).mpr (hdig c hc)⟩
      · exfalso
        refine h ?_
        rw [hcase]
        exact List.getLast?_concat _

/-- C3 counterexample: for the identifier `12\n` with an empty
vocabulary the code reports no missing token, yet its only underscore
part is neither purely numeric (decimal digits 0-9 only) nor a member of
the approved-term set — the claimed iff fails as stated. -/
theorem check_column_parts_claim_counterexample :
    ¬(check_column_parts "12\n" [] "" [] = [] ↔
        ∀ part ∈ pySplitUnderscore "12\n",
          (part ≠ "" ∧ ∀ c ∈ part.toList, '0' ≤ c ∧ c ≤ '9')
            ∨ part ∈ approved_terms [] [] "") := by
  decide

/-- C3 (amended): the missing-token computation over the underscore
parts of an identifier is empty exactly when every part is accepted by
the code's numeric test — one or more decimal digits 0-9 optionally
followed by a single trailing newline — or belongs to the approved-term
set (abbreviation keys and values, class words, and the row's
English-name words). -/
theorem check_column_parts_empty_iff (column_name english_name : String)
    (abbreviations : List (String × String)) (class_words : List String) :
    check_column_parts column_name abbreviations english_name class_words = [] ↔
      ∀ part ∈ pySplitUnderscore column_name,
        (∃ ds : List Char, ds ≠ [] ∧ (∀ c ∈ ds, '0' ≤ c ∧ c ≤ '9')
            ∧ (part.toList = ds ∨ part.toList = ds ++ ['\n']))
          ∨ part ∈ approved_terms abbreviations class_words english_name := by
  unfold check_column_parts
  rw [List.filter_eq_nil_iff]
  constructor
  · intro h part hp
    have hcond := h part (List.mem_dedup.mpr hp)
    by_cases hn : is_number part = true
    · exact Or.inl ((is_number_iff_digits part).mp hn)
    · right
      by_contra hmem
      exact hcond (by simp [hmem, hn])
  · intro h part hp
    rcases h part (List.mem_dedup.mp hp) with hn | hmem
    · simp [(is_number_iff_digits part).mpr hn]
    · simp [hmem]

/-- C9 counterexample: `bool(re.match(r"^\d+$", "12\n"))` is true in
Python — the anchor `$` matches before the trailing newline — although
`12\n` does not consist only of decimal digits, so the claimed iff fails
as stated. -/
theorem is_number_claim_counterexample :
    ¬(is_number "12\n" = true ↔
        "12\n" ≠ "" ∧ ∀ c ∈ ("12\n").toList, '0' ≤ c ∧ c ≤ '9') := by
  decide

/-- C9 (amended): the numeric-token predicate holds exactly on one or
more decimal digits 0-9 optionally followed by a single trailing newline
(Python's `$` also matches just before a final newline), and a token it
accepts is never reported missing by the column-token check, whatever
the vocabulary. -/
theorem is_number_spec (t column_name english_name : String)
    (abbreviations : List (String × String)) (class_words : List String) :
    (is_number t = true ↔
        ∃ ds : List Char, ds ≠ [] ∧ (∀ c ∈ ds, '0' ≤ c ∧ c ≤ '9')
          ∧ (t.toList = ds ∨ t.toList = ds ++ ['\n']))
      ∧ (is_number t = true →
          t ∉ check_column_parts column_name abbreviations english_name class_words) := by
  refine ⟨is_number_iff_digits t, ?_⟩
  intro hn hmem
  unfold check_column_parts at hmem
  have := List.of_mem_filter hmem
  simp [hn] at this

/-- The `unrecognized_parts` of `validate_abbreviation_usage` are exactly
the tokens computed by `check_column_parts`. -/
theorem unrecognized_eq_check_column_parts (column_name english_name : String)
    (abbreviations : List (String × String)) (class_words : List String) :
    (validate_abbreviation_usage column_name abbreviations class_words english_name).unrecognized_parts
      = check_column_parts column_name abbreviations english_name class_words := by
  simp only [validate_abbreviation_usage, check_column_parts]
  split
  · next hempty => exact (List.isEmpty_iff.mp hempty).symm
  · rfl

/-- The de-duplicated missing-parts list of the engine is always empty. -/
theorem filtered_missing_parts_eq_nil (column_name english_name : String)
    (abbreviations : List (String × String)) (class_words : List String) :
    filtered_missing_parts column_name abbreviations class_words english_name = [] := by
  unfold filtered_missing_parts
  rw [List.filter_eq_nil_iff]
  intro part hp
  rw [unrecognized_eq_check_column_parts]
  simp [hp]

/-- C4: when the first three characters of the column name are a key of
the (concrete) class-word type map, the class-word check passes exactly
when the data type belongs to the mapped type list. -/
theorem validate_class_word_pass_iff (column_name data_type english_name : String)
    (tys : List String)
    (h : List.lookup (String.mk (column_name.toList.take 3)) class_word_type_map = some tys) :
    (validate_class_word column_name data_type english_name class_word_type_map).validation_status
        = "PASS" ↔ data_type ∈ tys := by
  simp only [validate_class_word, h, Option.getD_some]
  cases hc : tys.contains data_type with
  | true =>
    have hm : data_type ∈ tys := by simpa using hc
    simp [hc, hm]
  | false =>
    have hm : data_type ∉ tys := by simpa using hc
    simp only [hc, Bool.not_false, if_true]
    constructor
    · intro hfail
      exact absurd hfail (by decide)
    · intro hmem
      exact absurd hmem hm

/-- C5: when the first three characters of the column name are not a key
of the class-word type map, the check fails for every data type with the
same mismatch text as a genuine incompatibility, and suggests `TXT` when
the lower-cased English name contains `text`, else `IND`. -/
theorem validate_class_word_absent (column_name data_type english_name : String)
    (h : List.lookup (String.mk (column_name.toList.take 3)) class_word_type_map = none) :
    (validate_class_word column_name data_type english_name class_word_type_map).validation_status
        = "FAIL"
      ∧ (validate_class_word column_name data_type english_name class_word_type_map).class_word_issue
          = "Class word '" ++ String.mk (column_name.toList.take 3)
            ++ "' does not match expected data type '" ++ data_type ++ "'."
      ∧ (validate_class_word column_name data_type english_name class_word_type_map).suggested_class_word
          = (if pyContains (pyLower english_name) "text" then "TXT" else "IND") := by
  simp only [validate_class_word, h, Option.getD_none]
  exact ⟨rfl, rfl, rfl⟩

/-- C6: `check_column_parts` and the `unrecognized_parts` field of
`validate_abbreviation_usage` always agree, the engine's filtered
missing-parts list is therefore always empty, and the per-row reason list
consists of at most the class-word issue followed by the unrecognized
abbreviation message — the `Column name is missing or incorrect for:`
reason is never emitted. -/
theorem missing_reason_never_emitted (column_name data_type english_name : String)
    (abbreviations : List (String × String)) (class_words : List String) :
    check_column_parts column_name abbreviations english_name class_words
        = (validate_abbreviation_usage column_name abbreviations class_words english_name).unrecognized_parts
      ∧ filtered_missing_parts column_name abbreviations class_words english_name = []
      ∧ row_failure_reasons column_name data_type english_name abbreviations class_words
          = (if (validate_class_word column_name data_type english_name class_word_type_map).validation_status = "FAIL"
              then [(validate_class_word column_name data_type english_name class_word_type_map).class_word_issue]
              else [])
            ++ (if !(validate_abbreviation_usage column_name abbreviations class_words english_name).unrecognized_parts.isEmpty
                then ["Unrecognized abbreviation(s): "
                  ++ String.intercalate ", "
                      (validate_abbreviation_usage column_name abbreviations class_words english_name).unrecognized_parts
                  ++ " are not in the approved list."]
                else []) := by
  refine ⟨(unrecognized_eq_check_column_parts column_name english_name abbreviations class_words).symm,
    filtered_missing_parts_eq_nil column_name english_name abbreviations class_words, ?_⟩
  simp only [row_failure_reasons,
    filtered_missing_parts_eq_nil column_name english_name abbreviations class_words]
  simp

/-- The status of a verdict is the `PASS`/`FAIL` decision on the reason
list and the table failure reason. -/
theorem validate_row_status (advisor : Advisor) (o : SampleOracle)
    (abbreviations : List (String × String)) (class_words : List String) (row : RawRow) :
    (validate_row advisor o abbreviations class_words row).validation_status
      = if row_failure_reasons (pyUpper (pyStrip row.column_name)) (pyUpper (pyStrip row.data_type))
            (pyUpper (pyStrip row.english_name)) abbreviations class_words = []
          ∧ table_failure_reason_of (pyUpper (pyStrip row.table_name)) = ""
        then "PASS" else "FAIL" := by
  simp only [validate_row]

/-- The table failure reason is empty exactly on valid table names. -/
theorem table_failure_reason_empty_iff (t : String) :
    table_failure_reason_of t = "" ↔ table_name_valid t = true := by
  have hmsg : ("Table name must start with 'T' and end with \x7b'FACT','DIM','STG','RPTNG'\x7d." : String) ≠ "" := by decide
  unfold table_failure_reason_of
  by_cases hv : table_name_valid t
  · simp [hv]
  · simp [hv, hmsg]

/-- The reason list is empty exactly when the class-word check passes and
the column-token check finds nothing. -/
theorem row_failure_reasons_eq_nil_iff (cn dt en : String)
    (ab : List (String × String)) (cw : List String) :
    row_failure_reasons cn dt en ab cw = [] ↔
      ((validate_class_word cn dt en class_word_type_map).validation_status ≠ "FAIL"
        ∧ check_column_parts cn ab en cw = []) := by
  simp only [row_failure_reasons, filtered_missing_parts_eq_nil cn en ab cw,
    unrecognized_eq_check_column_parts cn en ab cw]
  simp [List.append_eq_nil]

/-- The status is `FAIL` exactly when the table shape fails, the
class-word check fails, or the missing-token list is non-empty. -/
theorem validate_row_fail_iff (advisor : Advisor) (o : SampleOracle)
    (abbreviations : List (String × String)) (class_words : List String) (row : RawRow) :
    (validate_row advisor o abbreviations class_words row).validation_status = "FAIL" ↔
      (table_name_valid (pyUpper (pyStrip row.table_name)) = false
        ∨ (validate_class_word (pyUpper (pyStrip row.column_name))
            (pyUpper (pyStrip row.data_type)) (pyUpper (pyStrip row.english_name))
            class_word_type_map).validation_status = "FAIL"
        ∨ check_column_parts (pyUpper (pyStrip row.column_name)) abbreviations
            (pyUpper (pyStrip row.english_name)) class_words ≠ []) := by
  rw [validate_row_status]
  by_cases hc : (row_failure_reasons (pyUpper (pyStrip row.column_name))
      (pyUpper (pyStrip row.data_type)) (pyUpper (pyStrip row.english_name))
      abbreviations class_words = []
    ∧ table_failure_reason_of (pyUpper (pyStrip row.table_name)) = "")
  · rw [if_pos hc]
    obtain ⟨h1, h2⟩ := hc
    obtain ⟨hcl, hch⟩ := (row_failure_reasons_eq_nil_iff _ _ _ _ _).mp h1
    have hv : table_name_valid (pyUpper (pyStrip row.table_name)) = true :=
      (table_failure_reason_empty_iff _).mp h2
    constructor
    · intro habs
      exact absurd habs (by decide)
    · rintro (hb | hb | hb)
      · rw [hv] at hb
        exact absurd hb (by decide)
      · exact absurd hb hcl
      · exact absurd hch hb
  · rw [if_neg hc]
    constructor
    · intro _
      by_contra hnP
      push_neg at hnP
      obtain ⟨hP1, hP2, hP3⟩ := hnP
      refine hc ⟨(row_failure_reasons_eq_nil_iff _ _ _ _ _).mpr ⟨hP2, hP3⟩, ?_⟩
      refine (table_failure_reason_empty_iff _).mpr ?_
      cases hb : table_name_valid (pyUpper (pyStrip row.table_name)) with
      | true => rfl
      | false => exact absurd hb hP1
    · intro _
      rfl

/-- C1: a row's status is `FAIL` exactly when the table-name shape check
fails, the class-word check fails, or the missing-token list is
non-empty, and `PASS` otherwise; the status never depends on a
capitalization divergence of the English name. -/
theorem validation_status_iff (advisor : Advisor) (o : SampleOracle)
    (abbreviations : List (String × String)) (class_words : List String) (row : RawRow) :
    ((validate_row advisor o abbreviations class_words row).validation_status = "FAIL" ↔
      (table_name_valid (pyUpper (pyStrip row.table_name)) = false
        ∨ (validate_class_word (pyUpper (pyStrip row.column_name))
            (pyUpper (pyStrip row.data_type)) (pyUpper (pyStrip row.english_name))
            class_word_type_map).validation_status = "FAIL"
        ∨ check_column_parts (pyUpper (pyStrip row.column_name)) abbreviations
            (pyUpper (pyStrip row.english_name)) class_words ≠ []))
    ∧ ((validate_row advisor o abbreviations class_words row).validation_status = "PASS" ↔
      ¬(table_name_valid (pyUpper (pyStrip row.table_name)) = false
        ∨ (validate_class_word (pyUpper (pyStrip row.column_name))
            (pyUpper (pyStrip row.data_type)) (pyUpper (pyStrip row.english_name))
            class_word_type_map).validation_status = "FAIL"
        ∨ check_column_parts (pyUpper (pyStrip row.column_name)) abbreviations
            (pyUpper (pyStrip row.english_name)) class_words ≠ [])) := by
  have hf := validate_row_fail_iff advisor o abbreviations class_words row
  refine ⟨hf, ?_⟩
  have hd : (validate_row advisor o abbreviations class_words row).validation_status = "PASS"
      ∨ (validate_row advisor o abbreviations class_words row).validation_status = "FAIL" := by
    rw [validate_row_status]
    split
    · exact Or.inl rfl
    · exact Or.inr rfl
  have hne : ¬(("PASS" : String) = "FAIL") := by decide
  have hne2 : ¬(("FAIL" : String) = "PASS") := by decide
  rcases hd with h | h
  · rw [h] at hf ⊢
    exact ⟨fun _ hP => hne (hf.mpr hP), fun _ => rfl⟩
  · rw [h]
    have hP := hf.mp h
    exact ⟨fun habs => absurd habs hne2, fun hnP => absurd hP hnP⟩

/-- `startswith('T')` is the first character being `T`. -/
theorem pyStartsWith_T_iff (s : String) :
    pyStartsWith s "T" = true ↔ s.toList.take 1 = ['T'] := by
  unfold pyStartsWith
  rw [show ("T".toList) = ['T'] from rfl, List.isPrefixOf_iff_prefix, List.prefix_iff_eq_take]
  simp [eq_comm]

/-- `endswith(tag)` is the tag being a suffix of the character list. -/
theorem pyEndsWith_iff (s suf : String) :
    pyEndsWith s suf = true ↔ suf.toList <:+ s.toList := by
  unfold pyEndsWith
  exact List.isSuffixOf_iff_suffix

/-- C2: the table-name shape check passes exactly when the normalized,
upper-cased table name starts with the character `T` and ends with one of
the four suffix tags `FACT`, `DIM`, `STG`, `RPTNG`; when it fails, the
table failure reason is a non-empty string and the overall status is
`FAIL`, whatever the column-level outcome. -/
theorem table_shape_spec (advisor : Advisor) (o : SampleOracle)
    (abbreviations : List (String × String)) (class_words : List String) (row : RawRow) :
    (table_name_valid (pyUpper (pyStrip row.table_name)) = true ↔
        ((pyUpper (pyStrip row.table_name)).toList.take 1 = ['T']
          ∧ ("FACT".toList <:+ (pyUpper (pyStrip row.table_name)).toList
              ∨ "DIM".toList <:+ (pyUpper (pyStrip row.table_name)).toList
              ∨ "STG".toList <:+ (pyUpper (pyStrip row.table_name)).toList
              ∨ "RPTNG".toList <:+ (pyUpper (pyStrip row.table_name)).toList)))
      ∧ (table_name_valid (pyUpper (pyStrip row.table_name)) = false →
          table_failure_reason_of (pyUpper (pyStrip row.table_name)) ≠ ""
            ∧ (validate_row advisor o abbreviations class_words row).validation_status
                = "FAIL") := by
  constructor
  · unfold table_name_valid
    simp only [Bool.and_eq_true, Bool.or_eq_true, pyStartsWith_T_iff, pyEndsWith_iff]
    tauto
  · intro hv
    constructor
    · unfold table_failure_reason_of
      rw [if_neg (by simp [hv])]
      decide
    · exact (validate_row_fail_iff advisor o abbreviations class_words row).mpr (Or.inl hv)

/-- C10: on a `PASS` row the verdict's Notes field is exactly `Valid`,
the suggested table and column names are empty strings and the additional
note is the `No corrections needed.` sentinel — even when the English
name's capitalization diverges from canonical form, so the capitalization
note is surfaced only on `FAIL` rows. -/
theorem pass_verdict_fields (advisor : Advisor) (o : SampleOracle)
    (abbreviations : List (String × String)) (class_words : List String) (row : RawRow)
    (h : (validate_row advisor o abbreviations class_words row).validation_status = "PASS") :
    (validate_row advisor o abbreviations class_words row).notes = "Valid"
      ∧ (validate_row advisor o abbreviations class_words row).suggested_table_name = ""
      ∧ (validate_row advisor o abbreviations class_words row).suggested_column_name = ""
      ∧ (validate_row advisor o abbreviations class_words row).additional_notes
          = "No corrections needed." := by
  by_cases hc : (row_failure_reasons (pyUpper (pyStrip row.column_name))
      (pyUpper (pyStrip row.data_type)) (pyUpper (pyStrip row.english_name))
      abbreviations class_words = []
    ∧ table_failure_reason_of (pyUpper (pyStrip row.table_name)) = "")
  · have hne : ¬(("PASS" : String) = "FAIL") := by decide
    simp only [validate_row, if_pos hc]
    simp [hne]
  · rw [validate_row_status, if_neg hc] at h
    exact absurd h (by decide)

/-- Witness for C4: the class word `AMT` is mapped, and `DECIMAL` is
compatible with it. -/
theorem validate_class_word_pass_iff_witness :
    List.lookup (String.mk ("AMT_TOT".toList.take 3)) class_word_type_map
        = some ["DECIMAL", "FLOAT", "NUMERIC", "NUMBER"]
      ∧ (validate_class_word "AMT_TOT" "DECIMAL" "Total Amount"
          class_word_type_map).validation_status = "PASS" :=
  ⟨by decide,
    (validate_class_word_pass_iff "AMT_TOT" "DECIMAL" "Total Amount"
      ["DECIMAL", "FLOAT", "NUMERIC", "NUMBER"] (by decide)).mpr (by decide)⟩

/-- Witness for C5: the class word `XYZ` is unmapped, the check fails and
suggests `TXT` because the English name contains `text`. -/
theorem validate_class_word_absent_witness :
    List.lookup (String.mk ("XYZ_CD".toList.take 3)) class_word_type_map = none
      ∧ (validate_class_word "XYZ_CD" "INT" "Free Text Field"
          class_word_type_map).validation_status = "FAIL"
      ∧ (validate_class_word "XYZ_CD" "INT" "Free Text Field"
          class_word_type_map).suggested_class_word = "TXT" :=
  ⟨by decide,
    (validate_class_word_absent "XYZ_CD" "INT" "Free Text Field" (by decide)).1,
    ((validate_class_word_absent "XYZ_CD" "INT" "Free Text Field" (by decide)).2.2).trans
      (by decide)⟩

/-- Witness for C10 at a concrete passing row whose English name
(`order date`) diverges from canonical capitalization. -/
theorem pass_verdict_fields_witness :
    (validate_row trivialAdvisor fixedOracle [("ORDER", "ORD")] ["DTE"]
        examplePassRow).validation_status = "PASS"
      ∧ ((validate_row trivialAdvisor fixedOracle [("ORDER", "ORD")] ["DTE"]
            examplePassRow).notes = "Valid"
        ∧ (validate_row trivialAdvisor fixedOracle [("ORDER", "ORD")] ["DTE"]
            examplePassRow).suggested_table_name = ""
        ∧ (validate_row trivialAdvisor fixedOracle [("ORDER", "ORD")] ["DTE"]
            examplePassRow).suggested_column_name = ""
        ∧ (validate_row trivialAdvisor fixedOracle [("ORDER", "ORD")] ["DTE"]
            examplePassRow).additional_notes = "No corrections needed.") :=
  ⟨by decide,
    pass_verdict_fields trivialAdvisor fixedOracle [("ORDER", "ORD")] ["DTE"]
      examplePassRow (by decide)⟩

end DataDict
